import Mathlib

/-!
# Verification of the jsfinder crawler core

Shallow embedding of the jsfinder concurrent traversal engine and its
retry/error-classification layer, together with proofs checking the
natural-language specification against the code.

Organisation:
* `ErrorType` / `GoErr` — the typed error taxonomy of `pkg/utils` (errors part
  of `retry.go`); Go's untyped `error` values are modelled by the `GoErr` sum.
* `RetryConfig` / `Retry` — the retry executor of `pkg/utils/retry.go`.
  Durations are rational numbers of nanoseconds (Go `time.Duration` is an
  int64 nanosecond count and the delay arithmetic is done in `float64`; all
  quantities used by the claims are exactly representable, so `ℚ` models the
  arithmetic without rounding concerns).  Wall-clock fields (`TotalTime`,
  `Timestamp`) are not modelled.  Context cancellation is modelled by boolean
  oracles indexed by the attempt number, randomness by a rational oracle.
* URL parsing/resolution — model of the parts of Go's `net/url` used by
  `resolveURL` / `isValidLink` in `pkg/crawler/crawler.go`.
* A small-step task system modelling the concurrent traversal (visited set
  test-and-set, in-flight fetches, depth bound) and a small-step semaphore
  system modelling the per-page goroutine fan-out of `crawlURL`.
-/

set_option maxRecDepth 10000

namespace JSFinder

/-! ## Error taxonomy (`pkg/utils`, errors section of `retry.go`) -/

/-- Go `ErrorType` constants (`UnknownError` .. `FileError`). -/
inductive ErrorType where
  | unknownError
  | networkError
  | timeoutError
  | httpError
  | parseError
  | configError
  | validationError
  | fileError
deriving DecidableEq, Repr

/-- `ErrorType.String()`. -/
def ErrorType.string : ErrorType → String
  | .networkError => "NETWORK_ERROR"
  | .timeoutError => "TIMEOUT_ERROR"
  | .httpError => "HTTP_ERROR"
  | .parseError => "PARSE_ERROR"
  | .configError => "CONFIG_ERROR"
  | .validationError => "VALIDATION_ERROR"
  | .fileError => "FILE_ERROR"
  | .unknownError => "UNKNOWN_ERROR"

/-- A Go `error` value as seen by the retry/crawler code: either a structured
`*AppError` (kind, message, cause, context annotations, retryable flag — the
`Timestamp` field is wall-clock time and is not modelled), a `net.Error`
(with its `Timeout()` flag), `context.DeadlineExceeded`, or any other plain
error.  Context values are stored stringified. -/
inductive GoErr where
  | app (kind : ErrorType) (message : String) (cause : Option GoErr)
        (ctx : List (String × String)) (retryable : Bool)
  | netErr (timeout : Bool) (message : String)
  | deadlineExceeded
  | plain (message : String)

/-- `isRetryableError(errType, cause)`: the switch on the error kind used at
construction time (the `cause` argument is ignored by the source). -/
def isRetryableErrorType : ErrorType → Bool
  | .networkError | .timeoutError => true
  | .httpError => true
  | _ => false

/-- `NewError`: constructs an `AppError` with the retryable flag derived from
the kind. -/
def NewError (errType : ErrorType) (message : String) (cause : Option GoErr) : GoErr :=
  .app errType message cause [] (isRetryableErrorType errType)

def NewNetworkError (message : String) (cause : Option GoErr) : GoErr :=
  NewError .networkError message cause

def NewTimeoutError (message : String) (cause : Option GoErr) : GoErr :=
  NewError .timeoutError message cause

/-- `AppError.WithContext`. -/
def GoErr.withContext (e : GoErr) (key value : String) : GoErr :=
  match e with
  | .app k m c ctx r => .app k m c (ctx ++ [(key, value)]) r
  | e => e

/-- `NewHTTPError`: an HTTP-kind error carrying the status code in context. -/
def NewHTTPError (message : String) (statusCode : Int) (cause : Option GoErr) : GoErr :=
  (NewError .httpError message cause).withContext "status_code" (toString statusCode)

def NewValidationError (message : String) (cause : Option GoErr) : GoErr :=
  NewError .validationError message cause

def NewParseError (message : String) (cause : Option GoErr) : GoErr :=
  NewError .parseError message cause

/-- `AppError.Error()` / `.Error()` of the other error shapes. -/
def GoErr.errorString : GoErr → String
  | .app k m (some c) _ _ => k.string ++ ": " ++ m ++ " (caused by: " ++ c.errorString ++ ")"
  | .app k m none _ _ => k.string ++ ": " ++ m
  | .netErr _ m => m
  | .deadlineExceeded => "context deadline exceeded"
  | .plain m => m

/-- `IsNetworkError`. -/
def IsNetworkError : GoErr → Bool
  | .app k _ _ _ _ => k = .networkError
  | .netErr _ _ => true
  | .deadlineExceeded => false
  | .plain _ => false

/-- `IsTimeoutError`. -/
def IsTimeoutError : GoErr → Bool
  | .app k _ _ _ _ => k = .timeoutError
  | .netErr t _ => t
  | .deadlineExceeded => true
  | .plain _ => false

/-- `IsRetryableError`. -/
def IsRetryableError (e : GoErr) : Bool :=
  match e with
  | .app _ _ _ _ r => r
  | e => IsNetworkError e || IsTimeoutError e

/-- `isErrorRetryable(err, retryableErrors)`: an `AppError` must both have a
kind listed in `retryableErrors` and its own retryable flag set; other error
shapes fall back to `IsRetryableError`. -/
def isErrorRetryable (err : GoErr) (retryableErrors : List ErrorType) : Bool :=
  match err with
  | .app k _ _ _ r => if retryableErrors.contains k then r else false
  | e => IsRetryableError e

/-- Does `pat` occur at the start of `text`? (helper for `strings.Contains`). -/
def charsStartWith : List Char → List Char → Bool
  | [], _ => true
  | _ :: _, [] => false
  | p :: ps, c :: cs => p = c && charsStartWith ps cs

/-- `strings.Contains(text, pat)` on character lists. -/
def charsContain (pat : List Char) : List Char → Bool
  | [] => pat.isEmpty
  | c :: cs => charsStartWith pat (c :: cs) || charsContain pat cs

/-- `strings.Contains`. -/
def strContains (s pat : String) : Bool :=
  charsContain pat.data s.data

/-- `WrapError(err, message)`: `nil` passes through; an `AppError` keeps its
kind, cause, context and retryable flag with the new message prefixed; any
other error is classified and wrapped as its cause. -/
def WrapError (err : Option GoErr) (message : String) : Option GoErr :=
  match err with
  | none => none
  | some (.app k m c ctx r) => some (.app k (message ++ ": " ++ m) c ctx r)
  | some e =>
      let errType : ErrorType :=
        if IsNetworkError e then .networkError
        else if IsTimeoutError e then .timeoutError
        else if strContains e.errorString "parse" then .parseError
        else .unknownError
      some (NewError errType message (some e))

/-- The kind of a `GoErr` when it is an `AppError`. -/
def GoErr.appKind : GoErr → Option ErrorType
  | .app k _ _ _ _ => some k
  | _ => none

/-- The retryable flag of a `GoErr` when it is an `AppError`. -/
def GoErr.appRetryable : GoErr → Option Bool
  | .app _ _ _ _ r => some r
  | _ => none

/-! ## Retry executor (`pkg/utils/retry.go`) -/

/-- One nanosecond is `1`; Go duration constants. -/
def millisecond : ℚ := 1000000

def second : ℚ := 1000000000

def minute : ℚ := 60 * second

/-- `RetryConfig`. -/
structure RetryConfig where
  maxAttempts : ℕ
  initialDelay : ℚ
  maxDelay : ℚ
  backoffFactor : ℚ
  jitter : Bool
  retryableErrors : List ErrorType
  timeout : ℚ
deriving DecidableEq, Repr

/-- `DefaultRetryConfig()`. -/
def DefaultRetryConfig : RetryConfig where
  maxAttempts := 3
  initialDelay := 100 * millisecond
  maxDelay := 30 * second
  backoffFactor := 2
  jitter := true
  retryableErrors := [.networkError, .timeoutError, .httpError]
  timeout := 5 * minute

/-- `NetworkRetryConfig()`. -/
def NetworkRetryConfig : RetryConfig where
  maxAttempts := 5
  initialDelay := 200 * millisecond
  maxDelay := 10 * second
  backoffFactor := 3/2
  jitter := true
  retryableErrors := [.networkError, .timeoutError, .httpError]
  timeout := 2 * minute

/-- `QuickRetryConfig()`. -/
def QuickRetryConfig : RetryConfig where
  maxAttempts := 2
  initialDelay := 50 * millisecond
  maxDelay := 1 * second
  backoffFactor := 2
  jitter := false
  retryableErrors := [.networkError, .timeoutError]
  timeout := 10 * second

/-- `calculateDelay(attempt, config)`.  The `float64` arithmetic is modelled
over `ℚ`; `r` is the value drawn from `rand.Float64()` (in `[0,1)`) when
jitter is enabled.  The cap to `MaxDelay` is applied before jitter, and a
negative jittered value falls back to `InitialDelay`. -/
def calculateDelay (attempt : ℕ) (config : RetryConfig) (r : ℚ) : ℚ :=
  let delay := config.initialDelay * config.backoffFactor ^ (attempt - 1)
  let delay := if delay > config.maxDelay then config.maxDelay else delay
  if config.jitter then
    let jitterRange := delay * (1/4)
    let jitterValue := (r - 1/2) * 2 * jitterRange
    let delay := delay + jitterValue
    if delay < 0 then config.initialDelay else delay
  else delay

/-- `RetryResult` (the wall-clock `TotalTime` field is not modelled; the
`delaysSlept` field records the successive delays passed to `time.After`,
i.e. the sleeps actually performed between attempts). -/
structure RetryResult where
  success : Bool
  attempts : ℕ
  lastError : Option GoErr
  allErrors : List GoErr
  delaysSlept : List ℚ

/-- The error recorded when the context is already done before an attempt. -/
def ctxCancelErr : GoErr :=
  NewTimeoutError "retry operation cancelled or timed out" (some .deadlineExceeded)

/-- The error recorded when the context is cancelled during the backoff sleep. -/
def sleepCancelErr : GoErr :=
  NewTimeoutError "retry operation cancelled or timed out during delay" (some .deadlineExceeded)

/-- The attempt loop of `Retry`.  `attempt` is the 1-indexed loop counter;
`fuel` is `maxAttempts + 1 - attempt`, so running out of fuel is exactly the
loop condition `attempt <= maxAttempts` failing.  `fn i` is the outcome of
attempt `i` (`none` = success), `ctxDone i` whether the context is observed
done in the pre-attempt select, `sleepCancel i` whether the context fires
during the post-attempt backoff sleep, `rand i` the jitter sample. -/
def retryAux (config : RetryConfig) (fn : ℕ → Option GoErr)
    (ctxDone sleepCancel : ℕ → Bool) (rand : ℕ → ℚ) :
    ℕ → ℕ → RetryResult → RetryResult
  | _, 0, res => res
  | attempt, fuel + 1, res =>
    let res := { res with attempts := attempt }
    if ctxDone attempt then
      { res with success := false, lastError := some ctxCancelErr,
                 allErrors := res.allErrors ++ [ctxCancelErr] }
    else
      match fn attempt with
      | none => { res with success := true }
      | some err =>
        let res := { res with lastError := some err, allErrors := res.allErrors ++ [err] }
        if ¬ isErrorRetryable err config.retryableErrors then res
        else if attempt = config.maxAttempts then res
        else
          let delay := calculateDelay attempt config (rand attempt)
          if sleepCancel attempt then
            { res with lastError := some sleepCancelErr,
                       allErrors := res.allErrors ++ [sleepCancelErr] }
          else
            retryAux config fn ctxDone sleepCancel rand (attempt + 1) fuel
              { res with delaysSlept := res.delaysSlept ++ [delay] }

/-- `Retry(ctx, config, fn, logger)`. -/
def Retry (config : RetryConfig) (fn : ℕ → Option GoErr)
    (ctxDone sleepCancel : ℕ → Bool) (rand : ℕ → ℚ) : RetryResult :=
  retryAux config fn ctxDone sleepCancel rand 1 config.maxAttempts
    { success := false, attempts := 0, lastError := none, allErrors := [], delaysSlept := [] }

/-- `WithRetry(config, logger)` applied to `fn`: the wrapped function returns
`result.LastError` — even when the retry succeeded. -/
def WithRetry (config : RetryConfig) (fn : ℕ → Option GoErr)
    (ctxDone sleepCancel : ℕ → Bool) (rand : ℕ → ℚ) : Option GoErr :=
  (Retry config fn ctxDone sleepCancel rand).lastError

/-! ## URLs (`net/url` as used by `resolveURL` / `isValidLink`)

The crawler delegates URL parsing and reference resolution to Go's `net/url`
library.  The model below reproduces the parts exercised by the crawler:
`url.Parse` (scheme, authority/host, path, query, fragment; user-info is
stripped from the host; percent-escaping is not modelled — inputs are taken
raw), `URL.ResolveReference` with RFC 3986 path merging and dot-segment
removal, and `URL.String`. -/

/-- Split a character list at the first occurrence of `c`: the part before it
and, when present, the part after it (the separator removed). -/
def splitFirstChar (c : Char) : List Char → List Char × Option (List Char)
  | [] => ([], none)
  | x :: xs =>
    if x = c then ([], some xs)
    else
      let (pre, post) := splitFirstChar c xs
      (x :: pre, post)

/-- Split a character list on every occurrence of `c`. -/
def splitOnChar (c : Char) : List Char → List (List Char)
  | [] => [[]]
  | x :: xs =>
    if x = c then [] :: splitOnChar c xs
    else
      match splitOnChar c xs with
      | [] => [[x]]
      | s :: rest => (x :: s) :: rest

/-- `parseAuthority`: the host is the part of the authority after the last
`@` (the user-info before it is discarded by the crawler's use). -/
def dropUserinfo (auth : List Char) : List Char :=
  match splitFirstChar '@' auth.reverse with
  | (_, none) => auth
  | (revHost, some _) => revHost.reverse

/-- `getScheme`: scans for a leading `scheme:`.  `Except`-error for a colon in
position 0 (`missing protocol scheme`), `ok none` when the input has no
scheme, `ok (some (scheme, rest))` otherwise. -/
def getSchemeAux : List Char → List Char → Except String (Option (List Char × List Char))
  | [], _ => .ok none
  | c :: rest, acc =>
    if c.isAlpha then getSchemeAux rest (c :: acc)
    else if c.isDigit || c = '+' || c = '-' || c = '.' then
      if acc.isEmpty then .ok none else getSchemeAux rest (c :: acc)
    else if c = ':' then
      if acc.isEmpty then .error "missing protocol scheme"
      else .ok (some (acc.reverse, rest))
    else .ok none

/-- ASCII lower-casing of one character (`strings.ToLower` as applied to a
URL scheme, whose characters `getScheme` restricts to ASCII letters, digits,
`+`, `-`, `.`). -/
def charLower (c : Char) : Char :=
  match c with
  | 'A' => 'a' | 'B' => 'b' | 'C' => 'c' | 'D' => 'd' | 'E' => 'e' | 'F' => 'f'
  | 'G' => 'g' | 'H' => 'h' | 'I' => 'i' | 'J' => 'j' | 'K' => 'k' | 'L' => 'l'
  | 'M' => 'm' | 'N' => 'n' | 'O' => 'o' | 'P' => 'p' | 'Q' => 'q' | 'R' => 'r'
  | 'S' => 's' | 'T' => 't' | 'U' => 'u' | 'V' => 'v' | 'W' => 'w' | 'X' => 'x'
  | 'Y' => 'y' | 'Z' => 'z' | c => c

/-- A parsed Go `url.URL` (fields `Scheme`, `Opaque`, `Host`, `Path`,
`RawQuery`, `Fragment`; `User` is dropped by `dropUserinfo`). -/
structure GoURL where
  scheme : String
  opq : String
  host : String
  path : String
  query : String
  frag : String
deriving DecidableEq, Repr

/-- The part of `url.Parse` after fragment/scheme/query have been split off:
opaque URLs, the authority (`//host`) case, and plain paths, including the
`first path segment in URL cannot contain colon` error for scheme-less
relative references. -/
def parseAfterScheme (scheme : String) (rest0 : List Char) (query frag : String) :
    Option GoURL :=
  if ¬ charsStartWith ['/'] rest0 then
    if scheme ≠ "" then
      some { scheme, opq := String.mk rest0, host := "", path := "", query, frag }
    else
      let (seg, _) := splitFirstChar '/' rest0
      if charsContain [':'] seg then none
      else some { scheme, opq := "", host := "", path := String.mk rest0, query, frag }
  else
    if charsStartWith ['/', '/'] rest0 ∧
        (scheme ≠ "" ∨ ¬ charsStartWith ['/', '/', '/'] rest0) then
      let after := rest0.drop 2
      let (auth, pathO) := splitFirstChar '/' after
      let host := String.mk (dropUserinfo auth)
      let path := match pathO with | none => "" | some p => String.mk ('/' :: p)
      some { scheme, opq := "", host, path, query, frag }
    else
      some { scheme, opq := "", host := "", path := String.mk rest0, query, frag }

/-- `url.Parse` (`none` models a parse error). -/
def parseURL (rawURL : String) : Option GoURL :=
  let (beforeFrag, fragO) := splitFirstChar '#' rawURL.data
  let frag := match fragO with | none => "" | some f => String.mk f
  match getSchemeAux beforeFrag [] with
  | .error _ => none
  | .ok res =>
    let (scheme, rest1) :=
      match res with
      | none => ("", beforeFrag)
      | some (s, r) => (String.mk (s.map charLower), r)
    let (rest2, queryO) := splitFirstChar '?' rest1
    let query := match queryO with | none => "" | some q => String.mk q
    parseAfterScheme scheme rest2 query frag

/-- The prefix of `l` up to and including its last `/` (empty when `l` has no
slash) — `base[:strings.LastIndex(base, "/")+1]`. -/
def baseToLastSlash (l : List Char) : List Char :=
  match splitFirstChar '/' l.reverse with
  | (_, none) => []
  | (_, some revRest) => ('/' :: revRest).reverse

/-- Dot-segment removal over path segments, stack-based; a trailing `.` or
`..` leaves a trailing slash (an empty final segment). -/
def dotSegs : List (List Char) → List (List Char) → List (List Char)
  | [], acc => acc.reverse
  | [s], acc =>
    if s = ['.'] then ([] :: acc).reverse
    else if s = ['.', '.'] then ([] :: acc.drop 1).reverse
    else (s :: acc).reverse
  | s :: rest, acc =>
    if s = ['.'] then dotSegs rest acc
    else if s = ['.', '.'] then dotSegs rest (acc.drop 1)
    else dotSegs rest (s :: acc)

/-- Go's `resolvePath(base, ref)`: RFC 3986 path merge followed by
dot-segment removal; a non-empty result always begins with `/`. -/
def resolvePath (base ref : String) : String :=
  let full : List Char :=
    if ref = "" then base.data
    else if charsStartWith ['/'] ref.data then ref.data
    else baseToLastSlash base.data ++ ref.data
  if full.isEmpty then ""
  else
    let segs :=
      match splitOnChar '/' full with
      | [] => []
      | s :: rest => if s.isEmpty then rest else s :: rest
    String.mk ('/' :: List.intercalate ['/'] (dotSegs segs []))

/-- `URL.ResolveReference` (user-info and `ForceQuery` are not modelled). -/
def resolveReference (u ref : GoURL) : GoURL :=
  let url := ref
  let url := if ref.scheme = "" then { url with scheme := u.scheme } else url
  if ref.scheme ≠ "" ∨ ref.host ≠ "" then
    { url with path := resolvePath ref.path "" }
  else if ref.opq ≠ "" then
    { url with host := "", path := "" }
  else
    let url :=
      if ref.path = "" ∧ ref.query = "" then
        let url := { url with query := u.query }
        if ref.frag = "" then { url with frag := u.frag } else url
      else url
    { url with host := u.host, path := resolvePath u.path ref.path }

/-- `URL.String`. -/
def GoURL.render (u : GoURL) : String :=
  let buf := if u.scheme ≠ "" then u.scheme ++ ":" else ""
  let core :=
    if u.opq ≠ "" then buf ++ u.opq
    else
      let buf :=
        if u.scheme ≠ "" ∨ u.host ≠ "" then
          (if u.host ≠ "" ∨ u.path ≠ "" then buf ++ "//" else buf) ++ u.host
        else buf
      let buf :=
        if u.path ≠ "" ∧ ¬ charsStartWith ['/'] u.path.data ∧ u.host ≠ "" then
          buf ++ "/"
        else buf
      let buf :=
        if buf = "" ∧ charsContain ['/'] (splitFirstChar ':' u.path.data).1 then "./"
        else buf
      buf ++ u.path
  core ++ (if u.query ≠ "" then "?" ++ u.query else "")
       ++ (if u.frag ≠ "" then "#" ++ u.frag else "")

/-- `Crawler.resolveURL(href, baseURL)`: parse failures pass `href` through
unchanged. -/
def resolveURL (href baseURL : String) : String :=
  match parseURL baseURL with
  | none => href
  | some base =>
    match parseURL href with
    | none => href
    | some ref => (resolveReference base ref).render

/-- `Crawler.isValidLink(link, baseURL)`: only the hosts of the two parsed
URLs are compared. -/
def isValidLink (link baseURL : String) : Bool :=
  match parseURL link with
  | none => false
  | some parsedLink =>
    match parseURL baseURL with
    | none => false
    | some parsedBase => parsedLink.host = parsedBase.host

/-- The per-anchor handling inside `Crawler.extractLinks`: each `href`
attribute value is resolved against the page URL and kept when
`isValidLink` accepts it.  (The HTML traversal producing the `href` list is
the external parsing collaborator.) -/
def validLinksOf (hrefs : List String) (baseURL : String) : List String :=
  (hrefs.map (fun h => resolveURL h baseURL)).filter (fun l => isValidLink l baseURL)

/-- `Crawler.addJSFile`: state is the `jsFiles` membership set and the lines
written to the output sink; a URL already present writes nothing. -/
def addJSFile (jsFiles : List String) (output : List String) (jsURL : String) :
    List String × List String :=
  if jsFiles.contains jsURL then (jsFiles, output)
  else (jsURL :: jsFiles, output ++ [jsURL])

/-- The host of a URL string, via `url.Parse`. -/
def hostOf (s : String) : Option String :=
  (parseURL s).map GoURL.host

/-! ## The traversal as a concurrent task system

`crawlURL(targetURL, depth)` runs once per scheduled crawl task.  Its phases:
(1) the depth guard (`depth > c.config.MaxDepth` returns at once, before the
visited set is touched); (2) the visited test-and-set, performed atomically
under `visitedMux.Lock()` — the membership check and the insertion happen in
one critical section; (3) the fetch (request + retry loop), after which the
page's links are resolved, filtered by `isValidLink` and scheduled at
`depth+1`.  Because many goroutines run `crawlURL` concurrently, the system
is modelled as a small-step transition relation over a scheduler state:
tasks move from `pending` through the atomic test-and-set into `inFlight`,
and a separate step performs the fetch (success or failure) and schedules the
children.  `hrefs u` is the fetch oracle: `none` when the fetch of `u` fails
after all retries, `some hs` the anchor `href` values of the fetched page. -/

structure CrawlTask where
  url : String
  depth : ℕ
deriving DecidableEq, Repr

structure SchedState where
  visited : List String
  pending : List CrawlTask
  inFlight : List CrawlTask
  fetched : List CrawlTask
deriving DecidableEq, Repr

/-- The tasks scheduled for the links of page `u` fetched at depth `d`:
nothing on fetch failure, the valid links at depth `d+1` on success. -/
def childTasks (hrefs : String → Option (List String)) (u : String) (d : ℕ) :
    List CrawlTask :=
  match hrefs u with
  | none => []
  | some hs => (validLinksOf hs u).map (fun l => ⟨l, d + 1⟩)

/-- One scheduler step.  Any pending task may be picked (the `l`/`r` split
models the nondeterministic interleaving of worker goroutines). -/
inductive SStep (maxDepth : ℕ) (hrefs : String → Option (List String)) :
    SchedState → SchedState → Prop where
  /-- `depth > c.config.MaxDepth`: the task returns before touching the
  visited set. -/
  | dropDepth (v : List String) (l r infl f : List CrawlTask) (u : String) (d : ℕ)
      (hd : maxDepth < d) :
      SStep maxDepth hrefs ⟨v, l ++ ⟨u, d⟩ :: r, infl, f⟩ ⟨v, l ++ r, infl, f⟩
  /-- the atomic test-and-set finds `u` already visited: the task returns. -/
  | dropVisited (v : List String) (l r infl f : List CrawlTask) (u : String) (d : ℕ)
      (hd : d ≤ maxDepth) (hv : u ∈ v) :
      SStep maxDepth hrefs ⟨v, l ++ ⟨u, d⟩ :: r, infl, f⟩ ⟨v, l ++ r, infl, f⟩
  /-- the atomic test-and-set claims `u`: it is inserted into the visited set
  before any fetch is attempted, and the task becomes in-flight. -/
  | testAndSet (v : List String) (l r infl f : List CrawlTask) (u : String) (d : ℕ)
      (hd : d ≤ maxDepth) (hv : u ∉ v) :
      SStep maxDepth hrefs ⟨v, l ++ ⟨u, d⟩ :: r, infl, f⟩
        ⟨u :: v, l ++ r, infl ++ [⟨u, d⟩], f⟩
  /-- an in-flight task performs its fetch attempt group and schedules the
  children (none when the fetch failed). -/
  | fetchTask (v : List String) (p : List CrawlTask) (l r f : List CrawlTask)
      (u : String) (d : ℕ) :
      SStep maxDepth hrefs ⟨v, p, l ++ ⟨u, d⟩ :: r, f⟩
        ⟨v, p ++ childTasks hrefs u d, l ++ r, f ++ [⟨u, d⟩]⟩

/-- Reachability in the scheduler system. -/
inductive SReach (maxDepth : ℕ) (hrefs : String → Option (List String)) :
    SchedState → SchedState → Prop where
  | refl (s : SchedState) : SReach maxDepth hrefs s s
  | tail {s t u : SchedState} (h : SReach maxDepth hrefs s t)
      (hs : SStep maxDepth hrefs t u) : SReach maxDepth hrefs s u

/-- The state at the start of a session: `crawlURL(domain, 0)`. -/
def initSched (root : String) : SchedState :=
  ⟨[], [⟨root, 0⟩], [], []⟩

/-! ## The per-page semaphore fan-out of `crawlURL`

After its own fetch, `crawlURL` creates a **new** channel semaphore
`make(chan struct{}, c.config.Threads)` and spawns one goroutine per
discovered link; each goroutine acquires a slot of **that page's** semaphore
around its whole recursive `crawlURL` call, and the parent waits on a
`sync.WaitGroup` for all children before returning.  This is modelled by a
tree of crawl invocations, each in one of four phases:

* `notStarted` — goroutine spawned, still blocked on the parent's semaphore;
* `fetching` — slot acquired, executing its own fetch (the phase during
  which the HTTP request is in flight);
* `joining` — own fetch done, children spawned, waiting on the `WaitGroup`
  (the semaphore slot of the parent is still held);
* `done` — `crawlURL` returned, slot released.

A child may enter `fetching` only while fewer than `Threads` of its siblings
hold a slot (are `fetching` or `joining`), and a node reaches `done` only
when all its children are `done`. -/

inductive Phase where
  | notStarted
  | fetching
  | joining
  | done
deriving DecidableEq, Repr

mutual
/-- A crawl invocation with its child invocations. -/
inductive PTree where
  | node (p : Phase) (children : Forest)
/-- The children of a crawl invocation. -/
inductive Forest where
  | nil
  | cons (t : PTree) (rest : Forest)
end

/-- The phase of the root invocation of a tree. -/
def PTree.phase : PTree → Phase
  | .node p _ => p

/-- Does this phase hold a semaphore slot? -/
def activePhase : Phase → Bool
  | .fetching => true
  | .joining => true
  | _ => false

/-- How many children currently hold a slot of the parent's semaphore. -/
def Forest.activeCount : Forest → ℕ
  | .nil => 0
  | .cons t rest => (if activePhase t.phase then 1 else 0) + rest.activeCount

/-- Are all invocations of the forest finished (`WaitGroup` released)? -/
def Forest.allDone : Forest → Bool
  | .nil => true
  | .cons t rest => (t.phase = Phase.done) && rest.allDone

mutual
/-- Number of fetches currently in flight in the whole session. -/
def PTree.countFetching : PTree → ℕ
  | .node p cs => (if p = Phase.fetching then 1 else 0) + Forest.countFetching cs
def Forest.countFetching : Forest → ℕ
  | .nil => 0
  | .cons t rest => t.countFetching + rest.countFetching
end

mutual
/-- Every invocation in the tree has at most `T` children holding slots. -/
def PTree.childBound (T : ℕ) : PTree → Bool
  | .node _ cs => decide (cs.activeCount ≤ T) && Forest.childBound T cs
def Forest.childBound (T : ℕ) : Forest → Bool
  | .nil => true
  | .cons t rest => t.childBound T && Forest.childBound T rest
end

/-- Appending forests (used to point at the child a step happens in). -/
def Forest.app : Forest → Forest → Forest
  | .nil, g => g
  | .cons t rest, g => .cons t (rest.app g)

/-- Exactly one `notStarted` child acquires a slot and starts fetching. -/
inductive ActivateOne : Forest → Forest → Prop where
  | head (gcs : Forest) (rest : Forest) :
      ActivateOne (.cons (.node .notStarted gcs) rest) (.cons (.node .fetching gcs) rest)
  | tail (c : PTree) {rest rest' : Forest} (h : ActivateOne rest rest') :
      ActivateOne (.cons c rest) (.cons c rest')

/-- One step of the fan-out system with semaphore width `T`. -/
inductive SemStep (T : ℕ) : PTree → PTree → Prop where
  /-- an invocation finishes its own fetch and starts waiting on its
  children's `WaitGroup`. -/
  | fetchDone (cs : Forest) : SemStep T (.node .fetching cs) (.node .joining cs)
  /-- `wg.Wait()` returns: all children are done, `crawlURL` returns and the
  slot held in the parent's semaphore is released. -/
  | joinDone (cs : Forest) (h : cs.allDone = true) :
      SemStep T (.node .joining cs) (.node .done cs)
  /-- a spawned child goroutine acquires one of the `T` slots of **this
  page's** semaphore (`semaphore <- struct{}{}`): only possible while fewer
  than `T` children hold slots. -/
  | activate {cs cs' : Forest} (hcount : cs.activeCount < T) (h : ActivateOne cs cs') :
      SemStep T (.node .joining cs) (.node .joining cs')
  /-- a step happens inside the child invocation between `before` and
  `after`. -/
  | inChild (p : Phase) (before after : Forest) {c c' : PTree} (h : SemStep T c c') :
      SemStep T (.node p (before.app (.cons c after)))
                (.node p (before.app (.cons c' after)))

/-- Reachability of the fan-out system. -/
inductive SemReach (T : ℕ) : PTree → PTree → Prop where
  | refl (t : PTree) : SemReach T t t
  | tail {s t u : PTree} (h : SemReach T s t) (hs : SemStep T t u) : SemReach T s u

/-! ## `CrawlDomain` / `CrawlFromStdin` error propagation

For the error-propagation claims the traversal is modelled as a recursive
function mirroring `crawlURL`'s control flow: the depth guard, the visited
check-and-insert, the retried fetch (collapsed into the oracle `hrefs`,
`none` = the retry loop exhausted/aborted and `crawlURL` returns the wrapped
error), then the fan-out over the valid links, whose per-child errors are
logged inside the goroutine and **not** propagated (`crawlURL` returns `nil`
after `wg.Wait()`).  The `fuel` argument only bounds the recursion depth: it
is consumed once per depth level, the top-level call passes `maxDepth + 1`,
and when it reaches `0` the depth guard would have returned `(visited, none)`
anyway, so the model agrees with the unbounded recursion. -/

def crawlURLf (hrefs : String → Option (List String)) (maxDepth : ℕ) :
    ℕ → String → ℕ → List String → List String × Option String
  | 0, _, _, visited => (visited, none)
  | fuel + 1, u, depth, visited =>
    if maxDepth < depth then (visited, none)
    else if visited.contains u then (visited, none)
    else
      let visited2 := u :: visited
      match hrefs u with
      | none => (visited2, some ("failed to crawl " ++ u))
      | some hs =>
        ((validLinksOf hs u).foldl
          (fun v l => (crawlURLf hrefs maxDepth fuel l (depth + 1) v).1) visited2,
         none)

/-- `Crawler.CrawlDomain(domain)`: a `setupOutput` failure is returned as a
setup error; otherwise the result is whatever `crawlURL(domain, 0)`
returns. -/
def CrawlDomain (setupOK : Bool) (hrefs : String → Option (List String))
    (maxDepth : ℕ) (domain : String) : Option String :=
  if setupOK = false then some "failed to setup output"
  else (crawlURLf hrefs maxDepth (maxDepth + 1) domain 0 []).2

/-- `Crawler.CrawlFromStdin()`: a `setupOutput` failure is returned; each
non-empty input line is crawled and a failing line's error is printed to
stderr, not returned; the final result is the scanner's error. -/
def CrawlFromStdin (setupOK : Bool) (hrefs : String → Option (List String))
    (maxDepth : ℕ) (lines : List String) (scanErr : Option String) : Option String :=
  if setupOK = false then some "failed to setup output"
  else
    let _ := (lines.filter (fun d => d ≠ "")).foldl
      (fun v d => (crawlURLf hrefs maxDepth (maxDepth + 1) d 0 v).1) []
    scanErr

/-! ## Claims about the error taxonomy and the retry executor -/

lemma wrapError_app (k : ErrorType) (m : String) (c : Option GoErr)
    (ctx : List (String × String)) (r : Bool) (msg : String) :
    WrapError (some (.app k m c ctx r)) msg = some (.app k (msg ++ ": " ++ m) c ctx r) :=
  rfl

lemma wrapFold_app (k : ErrorType) (c : Option GoErr) (ctx : List (String × String))
    (r : Bool) :
    ∀ (msgs : List String) (m : String), ∃ m2 : String,
      msgs.foldl (fun acc s => WrapError acc s) (some (GoErr.app k m c ctx r)) =
        some (GoErr.app k m2 c ctx r)
  | [], m => ⟨m, rfl⟩
  | msg :: rest, m => by
      rw [List.foldl_cons, wrapError_app]
      exact wrapFold_app k c ctx r rest (msg ++ ": " ++ m)

/-- Claim C8: wrapping a typed application error with a message yields an
error with the same kind, cause, context and retryable flag, with the message
prefixed to the original message; consequently any number of repeated
wrappings leaves kind, cause, context and retryable flag unchanged. -/
theorem wrapError_preserves_classification (k : ErrorType) (m : String)
    (c : Option GoErr) (ctx : List (String × String)) (r : Bool)
    (msg : String) (msgs : List String) :
    WrapError (some (.app k m c ctx r)) msg = some (.app k (msg ++ ": " ++ m) c ctx r) ∧
    ∃ m2 : String,
      msgs.foldl (fun acc s => WrapError acc s) (some (GoErr.app k m c ctx r)) =
        some (GoErr.app k m2 c ctx r) :=
  ⟨wrapError_app k m c ctx r msg, wrapFold_app k c ctx r msgs m⟩

/-- Claim C5: when an attempt fails with an error that `isErrorRetryable`
rejects (kind not configured as retryable, or retryable flag false), the
retry loop returns at once with `Success = false`, regardless of the
remaining attempts: one attempt is made, the error is recorded, and no
backoff delay is slept. -/
theorem retry_stops_on_nonretryable (config : RetryConfig) (fn : ℕ → Option GoErr)
    (ctxDone sleepCancel : ℕ → Bool) (rand : ℕ → ℚ) (e : GoErr)
    (hmax : 1 ≤ config.maxAttempts) (hcd : ctxDone 1 = false) (hfn : fn 1 = some e)
    (hret : isErrorRetryable e config.retryableErrors = false) :
    Retry config fn ctxDone sleepCancel rand =
      { success := false, attempts := 1, lastError := some e, allErrors := [e],
        delaysSlept := [] } := by
  obtain ⟨m, hm⟩ : ∃ m, config.maxAttempts = m + 1 := ⟨config.maxAttempts - 1, by omega⟩
  unfold Retry
  rw [hm]
  simp [retryAux, hcd, hfn, hret]

/-- The configuration named in claim C4:
`initialDelay=100ms, backoffFactor=2.0, maxDelay=10s, jitter=false`. -/
def delayDemoConfig : RetryConfig :=
  { maxAttempts := 6, initialDelay := 100 * millisecond, maxDelay := 10 * second,
    backoffFactor := 2, jitter := false,
    retryableErrors := [.networkError, .timeoutError, .httpError], timeout := 2 * minute }

/-- The claim C4 configuration with `maxAttempts = 5`. -/
def delayDemoConfig5 : RetryConfig :=
  { delayDemoConfig with maxAttempts := 5 }

/-- A retryable network failure. -/
def netFailErr : GoErr :=
  NewNetworkError "connection refused" none

/-- Claim C4: with jitter disabled the delay computed after attempt `i ≥ 1`
is `min(initialDelay * backoffFactor^(i-1), maxDelay)`; for
`initialDelay=100ms, backoffFactor=2.0, maxDelay=10s, jitter=false` the
delays for attempts 1..5 are 100ms, 200ms, 400ms, 800ms, 1600ms, and a run
with `maxAttempts=5` that fails every attempt sleeps only the four delays
between its five attempts — none is computed or slept after the final
attempt; with jitter enabled the cap is applied before jitter, so for a
jitter sample in `[0,1]` the delay never exceeds `maxDelay * 1.25`, and a
jittered value that would be negative falls back to `initialDelay`. -/
theorem retry_delay_schedule :
    (∀ (config : RetryConfig) (i : ℕ) (r : ℚ), config.jitter = false → 1 ≤ i →
        calculateDelay i config r =
          min (config.initialDelay * config.backoffFactor ^ (i - 1)) config.maxDelay) ∧
    ((List.range 5).map (fun j => calculateDelay (j + 1) delayDemoConfig 0) =
        [100 * millisecond, 200 * millisecond, 400 * millisecond,
         800 * millisecond, 1600 * millisecond]) ∧
    ((Retry delayDemoConfig5 (fun _ => some netFailErr) (fun _ => false) (fun _ => false)
        (fun _ => 0)).delaysSlept =
        [100 * millisecond, 200 * millisecond, 400 * millisecond, 800 * millisecond]) ∧
    ((Retry delayDemoConfig5 (fun _ => some netFailErr) (fun _ => false) (fun _ => false)
        (fun _ => 0)).attempts = 5) ∧
    (∀ (config : RetryConfig) (i : ℕ) (r : ℚ), config.jitter = true →
        0 ≤ config.initialDelay → config.initialDelay ≤ config.maxDelay →
        0 ≤ config.backoffFactor → 0 ≤ r → r ≤ 1 →
        calculateDelay i config r ≤ config.maxDelay * (5 / 4)) ∧
    (∀ (config : RetryConfig) (i : ℕ) (r : ℚ), config.jitter = true →
        (let d0 := config.initialDelay * config.backoffFactor ^ (i - 1)
         let capped := if d0 > config.maxDelay then config.maxDelay else d0
         capped + (r - 1 / 2) * 2 * (capped * (1 / 4)) < 0) →
        calculateDelay i config r = config.initialDelay) := by
  refine ⟨?_, ?_, ?_, ?_, ?_, ?_⟩
  · intro config i r hj _hi
    simp only [calculateDelay, hj, Bool.false_eq_true, if_false]
    rcases le_or_lt (config.initialDelay * config.backoffFactor ^ (i - 1))
        config.maxDelay with h | h
    · rw [if_neg (not_lt.2 h), min_eq_left h]
    · rw [if_pos h, min_eq_right h.le]
  · norm_num [List.range_succ, calculateDelay, delayDemoConfig, millisecond, second]
  · norm_num [Retry, retryAux, calculateDelay, delayDemoConfig5, delayDemoConfig,
      isErrorRetryable, netFailErr, NewNetworkError, NewError, isRetryableErrorType,
      millisecond, second]
  · norm_num [Retry, retryAux, calculateDelay, delayDemoConfig5, delayDemoConfig,
      isErrorRetryable, netFailErr, NewNetworkError, NewError, isRetryableErrorType,
      millisecond, second]
  · intro config i r hj h0 hIM hf hr0 hr1
    have hd0 : 0 ≤ config.initialDelay * config.backoffFactor ^ (i - 1) :=
      mul_nonneg h0 (pow_nonneg hf _)
    have hM0 : 0 ≤ config.maxDelay := le_trans h0 hIM
    simp only [calculateDelay, hj, if_true]
    rcases le_or_lt (config.initialDelay * config.backoffFactor ^ (i - 1))
        config.maxDelay with h | h
    · rw [if_neg (not_lt.2 h)]
      split
      · linarith
      · nlinarith [mul_le_mul_of_nonneg_right hr1 hd0, mul_nonneg hr0 hd0]
    · rw [if_pos h]
      split
      · linarith
      · nlinarith [mul_le_mul_of_nonneg_right hr1 hM0, mul_nonneg hr0 hM0]
  · intro config i r hj hneg
    simp only at hneg
    simp only [calculateDelay, hj, if_true]
    rw [if_pos hneg]

/-- Witness for C4: the jitter-free formula and the jitter bound applied at
concrete configurations and samples. -/
theorem retry_delay_schedule_witness :
    calculateDelay 3 QuickRetryConfig 0 =
      min (QuickRetryConfig.initialDelay * QuickRetryConfig.backoffFactor ^ 2)
        QuickRetryConfig.maxDelay ∧
    calculateDelay 4 DefaultRetryConfig (3 / 4) ≤ DefaultRetryConfig.maxDelay * (5 / 4) ∧
    calculateDelay 1 DefaultRetryConfig (-10) = DefaultRetryConfig.initialDelay := by
  refine ⟨retry_delay_schedule.1 QuickRetryConfig 3 0 rfl (by norm_num), ?_, ?_⟩
  · exact retry_delay_schedule.2.2.2.2.1 DefaultRetryConfig 4 (3 / 4) rfl
      (by norm_num [DefaultRetryConfig, millisecond])
      (by norm_num [DefaultRetryConfig, millisecond, second])
      (by norm_num [DefaultRetryConfig]) (by norm_num) (by norm_num)
  · exact retry_delay_schedule.2.2.2.2.2 DefaultRetryConfig 1 (-10) rfl
      (by norm_num [DefaultRetryConfig, millisecond, second])

lemma map_range_shift {α : Type} (f : ℕ → α) (a k : ℕ) :
    (List.range (k + 1)).map (fun j => f (a + j)) =
      f a :: (List.range k).map (fun j => f (a + 1 + j)) := by
  rw [List.range_succ_eq_map]
  simp only [List.map_cons, Nat.add_zero, List.map_map]
  refine congrArg _ ?_
  refine List.map_congr_left ?_
  intro j _
  simp only [Function.comp]
  exact congrArg f (by omega)

/-- Running the retry loop from attempt `a` when attempts `a .. a+k-1` fail
with retryable errors and attempt `a+k` succeeds: the loop returns success at
attempt `a+k`, with the `k` errors appended to the history, the delay for
each failed attempt slept, and `lastError` still holding the error of the
last failed attempt (or the incoming `lastError` when `k = 0`). -/
lemma retryAux_fail_run (config : RetryConfig) (fn : ℕ → Option GoErr)
    (ctxDone sleepCancel : ℕ → Bool) (rand : ℕ → ℚ) (errs : ℕ → GoErr) :
    ∀ (k a : ℕ) (res : RetryResult),
      (∀ i, a ≤ i → i < a + k → ctxDone i = false ∧ sleepCancel i = false ∧
        fn i = some (errs i) ∧ isErrorRetryable (errs i) config.retryableErrors = true) →
      ctxDone (a + k) = false → fn (a + k) = none →
      1 ≤ a → a + k ≤ config.maxAttempts →
      retryAux config fn ctxDone sleepCancel rand a (config.maxAttempts + 1 - a) res =
        { success := true, attempts := a + k,
          lastError := if k = 0 then res.lastError else some (errs (a + k - 1)),
          allErrors := res.allErrors ++ (List.range k).map (fun j => errs (a + j)),
          delaysSlept := res.delaysSlept ++
            (List.range k).map (fun j => calculateDelay (a + j) config (rand (a + j))) }
  | 0, a, res => by
    intro hfail hcd hfn _ha hmax
    have hfuel : config.maxAttempts + 1 - a = (config.maxAttempts - a) + 1 := by omega
    rw [hfuel]
    simp only [Nat.add_zero] at hcd hfn
    simp [retryAux, hcd, hfn]
  | (k + 1), a, res => by
    intro hfail hcd hfn ha hmax
    obtain ⟨hcda, hsca, hfna, hreta⟩ := hfail a (le_refl a) (by omega)
    have hfuel : config.maxAttempts + 1 - a = (config.maxAttempts - a) + 1 := by omega
    have hne : ¬ (a = config.maxAttempts) := by omega
    rw [hfuel]
    simp only [retryAux, hcda, Bool.false_eq_true, if_false, hfna, hreta, not_true,
      hne, hsca]
    have hfuel2 : config.maxAttempts - a = config.maxAttempts + 1 - (a + 1) := by omega
    rw [hfuel2]
    rw [retryAux_fail_run config fn ctxDone sleepCancel rand errs k (a + 1)
      _ (fun i hi1 hi2 => hfail i (by omega) (by omega))
      (by rw [show a + 1 + k = a + (k + 1) by omega]; exact hcd)
      (by rw [show a + 1 + k = a + (k + 1) by omega]; exact hfn)
      (by omega) (by omega)]
    congr 1
    · omega
    · rcases k with _ | j
      · simp
      · simp only [if_neg (Nat.succ_ne_zero j), Nat.succ_ne_zero, if_false]
        congr 2
        omega
    · rw [map_range_shift (fun i => errs i) a k]
      simp [List.append_assoc]
    · rw [map_range_shift (fun i => calculateDelay i config (rand i)) a k]
      simp [List.append_assoc]

/-- Claim C9: when attempts `1 .. n-1` fail with retryable errors and attempt
`n > 1` succeeds, the result has `Success = true` while `LastError` still
holds the error of attempt `n-1` (it is never cleared on success) and the
error history holds the `n-1` earlier failures; a `WithRetry`-wrapped
function therefore returns that stale error even on success, and only a
success on the first attempt yields a `nil` `LastError`. -/
theorem retry_success_keeps_stale_lastError (config : RetryConfig)
    (fn : ℕ → Option GoErr) (ctxDone sleepCancel : ℕ → Bool) (rand : ℕ → ℚ)
    (errs : ℕ → GoErr) (n : ℕ) (h2 : 2 ≤ n) (hn : n ≤ config.maxAttempts)
    (hfail : ∀ i, 1 ≤ i → i < n → ctxDone i = false ∧ sleepCancel i = false ∧
      fn i = some (errs i) ∧ isErrorRetryable (errs i) config.retryableErrors = true)
    (hcd : ctxDone n = false) (hsucc : fn n = none) :
    (Retry config fn ctxDone sleepCancel rand).success = true ∧
    (Retry config fn ctxDone sleepCancel rand).attempts = n ∧
    (Retry config fn ctxDone sleepCancel rand).lastError = some (errs (n - 1)) ∧
    (Retry config fn ctxDone sleepCancel rand).allErrors =
      (List.range (n - 1)).map (fun j => errs (1 + j)) ∧
    WithRetry config fn ctxDone sleepCancel rand = some (errs (n - 1)) ∧
    (∀ fn1 : ℕ → Option GoErr, ctxDone 1 = false → fn1 1 = none →
      1 ≤ config.maxAttempts →
      (Retry config fn1 ctxDone sleepCancel rand).success = true ∧
      (Retry config fn1 ctxDone sleepCancel rand).lastError = none) := by
  have hrun := retryAux_fail_run config fn ctxDone sleepCancel rand errs (n - 1) 1
    { success := false, attempts := 0, lastError := none, allErrors := [],
      delaysSlept := [] }
    (fun i hi1 hi2 => hfail i hi1 (by omega))
    (by rw [show 1 + (n - 1) = n by omega]; exact hcd)
    (by rw [show 1 + (n - 1) = n by omega]; exact hsucc)
    (le_refl 1) (by omega)
  rw [show config.maxAttempts + 1 - 1 = config.maxAttempts by omega] at hrun
  have hretry : Retry config fn ctxDone sleepCancel rand =
      { success := true, attempts := 1 + (n - 1),
        lastError := if n - 1 = 0 then none else some (errs (1 + (n - 1) - 1)),
        allErrors := [] ++ (List.range (n - 1)).map (fun j => errs (1 + j)),
        delaysSlept := [] ++ (List.range (n - 1)).map
          (fun j => calculateDelay (1 + j) config (rand (1 + j))) } := hrun
  have hn1 : ¬ (n - 1 = 0) := by omega
  refine ⟨by rw [hretry], by rw [hretry]; show 1 + (n - 1) = n; omega, ?_,
    by rw [hretry]; simp, ?_, ?_⟩
  · rw [hretry]
    simp only [hn1, if_false]
    rw [show 1 + (n - 1) - 1 = n - 1 by omega]
  · rw [WithRetry, hretry]
    simp only [hn1, if_false]
    rw [show 1 + (n - 1) - 1 = n - 1 by omega]
  · intro fn1 hcd1 hfn1 hmax1
    have hrun1 := retryAux_fail_run config fn1 ctxDone sleepCancel rand errs 0 1
      { success := false, attempts := 0, lastError := none, allErrors := [],
        delaysSlept := [] }
      (fun i hi1 hi2 => absurd (lt_of_le_of_lt hi1 hi2) (by omega))
      (by simpa using hcd1) (by simpa using hfn1) (le_refl 1) (by omega)
    rw [show config.maxAttempts + 1 - 1 = config.maxAttempts by omega] at hrun1
    have hretry1 : Retry config fn1 ctxDone sleepCancel rand =
        { success := true, attempts := 1 + 0, lastError := if 0 = 0 then none else none,
          allErrors := [] ++ (List.range 0).map (fun j => errs (1 + j)),
          delaysSlept := [] ++ (List.range 0).map
            (fun j => calculateDelay (1 + j) config (rand (1 + j))) } := hrun1
    rw [hretry1]
    exact ⟨rfl, rfl⟩

/-- Witness for C9: attempt 1 fails with a network error, attempt 2 succeeds;
the result is successful but `LastError` still holds the attempt-1 error. -/
theorem retry_success_keeps_stale_lastError_witness :
    (Retry DefaultRetryConfig (fun i => if i = 1 then some netFailErr else none)
      (fun _ => false) (fun _ => false) (fun _ => 0)).success = true ∧
    (Retry DefaultRetryConfig (fun i => if i = 1 then some netFailErr else none)
      (fun _ => false) (fun _ => false) (fun _ => 0)).lastError = some netFailErr := by
  have h := retry_success_keeps_stale_lastError DefaultRetryConfig
    (fun i => if i = 1 then some netFailErr else none) (fun _ => false) (fun _ => false)
    (fun _ => 0) (fun _ => netFailErr) 2 (by norm_num) (by norm_num [DefaultRetryConfig])
    (by
      intro i h1 hlt
      have hi : i = 1 := by omega
      subst hi
      exact ⟨rfl, rfl, rfl, rfl⟩)
    rfl rfl
  exact ⟨h.1, h.2.2.1⟩

/-- Witness for C5: a Validation-kind error on attempt 1 of 5 stops the retry
loop at `attempts = 1`. -/
theorem retry_stops_on_nonretryable_witness :
    Retry NetworkRetryConfig (fun _ => some (NewValidationError "invalid input" none))
        (fun _ => false) (fun _ => false) (fun _ => 0) =
      { success := false, attempts := 1,
        lastError := some (NewValidationError "invalid input" none),
        allErrors := [NewValidationError "invalid input" none], delaysSlept := [] } :=
  retry_stops_on_nonretryable NetworkRetryConfig _ _ _ _ _ (by decide) rfl rfl rfl

/-! ## Claims about the traversal scheduler -/

lemma isValidLink_host {l b : String} (h : isValidLink l b = true) :
    hostOf l = hostOf b ∧ (hostOf l).isSome = true := by
  unfold isValidLink at h
  cases hpl : parseURL l with
  | none => rw [hpl] at h; simp at h
  | some pl =>
    cases hpb : parseURL b with
    | none => rw [hpl, hpb] at h; simp at h
    | some pb =>
      rw [hpl, hpb] at h
      simp only [decide_eq_true_eq] at h
      simp [hostOf, hpl, hpb, h]

/-- The session invariant of the scheduler system: fetch attempt groups are
unique per URL, every fetched or in-flight URL is in the visited set, every
claimed task respects the depth bound, and every task's URL is the root or
has the root's host. -/
def SchedInv (maxDepth : ℕ) (root : String) (s : SchedState) : Prop :=
  ((s.fetched ++ s.inFlight).map CrawlTask.url).Nodup ∧
  (∀ t ∈ s.fetched ++ s.inFlight, t.url ∈ s.visited) ∧
  (∀ t ∈ s.fetched ++ s.inFlight, t.depth ≤ maxDepth) ∧
  (∀ t ∈ s.pending ++ s.inFlight ++ s.fetched, t.url = root ∨ hostOf t.url = hostOf root)

lemma sstep_preserves_inv {maxDepth : ℕ} {hrefs : String → Option (List String)}
    {root : String} {s s' : SchedState} (hstep : SStep maxDepth hrefs s s')
    (hinv : SchedInv maxDepth root s) : SchedInv maxDepth root s' := by
  obtain ⟨h1, h2, h3, h4⟩ := hinv
  cases hstep with
  | dropDepth v l r infl f u d hd =>
    refine ⟨h1, h2, h3, ?_⟩
    intro t ht
    refine h4 t ?_
    simp only [List.mem_append] at ht ⊢
    rcases ht with ((ht | ht) | ht) | ht <;> simp [ht]
  | dropVisited v l r infl f u d hd hv =>
    refine ⟨h1, h2, h3, ?_⟩
    intro t ht
    refine h4 t ?_
    simp only [List.mem_append] at ht ⊢
    rcases ht with ((ht | ht) | ht) | ht <;> simp [ht]
  | testAndSet v l r infl f u d hd hv =>
    have hnotin : u ∉ (f ++ infl).map CrawlTask.url := by
      intro hmem
      simp only [List.mem_map, List.mem_append] at hmem
      obtain ⟨t, ht, hturl⟩ := hmem
      exact hv (hturl ▸ h2 t (by simpa [List.mem_append] using ht))
    constructor
    · simp only [List.map_append, ← List.append_assoc]
      rw [List.nodup_append]
      refine ⟨by simpa [List.map_append] using h1, by simp, ?_⟩
      intro a ha hb
      simp only [List.map_cons, List.map_nil, List.mem_cons, List.not_mem_nil,
        or_false] at hb
      subst hb
      exact hnotin (by simpa [List.map_append] using ha)
    constructor
    · intro t ht
      simp only [List.mem_append] at ht
      rcases ht with ht | ht | ht
      · exact List.mem_cons_of_mem _ (h2 t (by simp [List.mem_append, ht]))
      · exact List.mem_cons_of_mem _ (h2 t (by simp [List.mem_append, ht]))
      · simp only [List.mem_singleton] at ht
        subst ht
        exact List.mem_cons_self _ _
    constructor
    · intro t ht
      simp only [List.mem_append] at ht
      rcases ht with ht | ht | ht
      · exact h3 t (by simp [List.mem_append, ht])
      · exact h3 t (by simp [List.mem_append, ht])
      · simp only [List.mem_singleton] at ht
        subst ht
        exact hd
    · intro t ht
      refine h4 t ?_
      simp only [List.mem_append, List.mem_singleton] at ht ⊢
      rcases ht with ((ht | ht) | ht | ht) | ht
      · exact Or.inl (Or.inl (Or.inl ht))
      · exact Or.inl (Or.inl (Or.inr (List.mem_cons_of_mem _ ht)))
      · exact Or.inl (Or.inr ht)
      · subst ht; exact Or.inl (Or.inl (Or.inr (List.mem_cons_self _ _)))
      · exact Or.inr ht
  | fetchTask v p l r f u d =>
    have hperm : (f ++ (l ++ ⟨u, d⟩ :: r)).Perm ((f ++ [⟨u, d⟩]) ++ (l ++ r)) := by
      refine List.Perm.trans (List.Perm.append_left f List.perm_middle) ?_
      simp [List.append_assoc]
    constructor
    · exact ((hperm.map CrawlTask.url).nodup_iff).1 h1
    constructor
    · intro t ht
      exact h2 t (hperm.symm.subset ht)
    constructor
    · intro t ht
      exact h3 t (hperm.symm.subset ht)
    · intro t ht
      simp only [List.mem_append, List.mem_singleton] at ht
      rcases ht with ((ht | ht) | (ht | ht)) | (ht | ht)
      case inl.inr.inl => exact h4 t (by simp [List.mem_append, ht])
      case inl.inr.inr => exact h4 t (by simp [List.mem_append, ht])
      case inr.inl => exact h4 t (by simp [List.mem_append, ht])
      case inr.inr => exact h4 t (by simp [List.mem_append, ht])
      case inl.inl.inl => exact h4 t (by simp [List.mem_append, ht])
      case inl.inl.inr =>
        -- a freshly scheduled child task
        have hu : CrawlTask.url ⟨u, d⟩ = root ∨ hostOf u = hostOf root :=
          h4 ⟨u, d⟩ (by simp [List.mem_append])
        simp only [childTasks] at ht
        cases hh : hrefs u with
        | none => rw [hh] at ht; simp at ht
        | some hs =>
          rw [hh] at ht
          simp only [List.mem_map] at ht
          obtain ⟨lnk, hlnk, htt⟩ := ht
          have hvalid : isValidLink lnk u = true := (List.mem_filter.1 hlnk).2
          have hhost := (isValidLink_host hvalid).1
          right
          rw [← htt]
          rcases hu with hu | hu
          · simp only [CrawlTask.url] at hu ⊢
            rw [hhost, hu]
          · simpa [hhost] using hu

lemma sreach_inv {maxDepth : ℕ} {hrefs : String → Option (List String)}
    {root : String} {s : SchedState}
    (h : SReach maxDepth hrefs (initSched root) s) : SchedInv maxDepth root s := by
  induction h with
  | refl => exact ⟨by simp [initSched], by simp [initSched], by simp [initSched],
      by intro t ht; simp [initSched] at ht; simp [ht]⟩
  | tail hr hs ih => exact sstep_preserves_inv hs ih

/-- Claim C2: in every reachable state of a crawl session at most one fetch
attempt group has been issued per distinct URL (the fetch log has no
duplicates), every URL that entered a fetch — successful or not — is in the
visited set, having been inserted by the atomic test-and-set before the
fetch was attempted (so it can never be re-scheduled); and the resource sink
is written at most once per resource: re-adding an already present JS file
URL writes nothing. -/
theorem visited_guard_fetches_once (maxDepth : ℕ) (hrefs : String → Option (List String))
    (root : String) (s : SchedState) (h : SReach maxDepth hrefs (initSched root) s) :
    (s.fetched.map CrawlTask.url).Nodup ∧
    (∀ t ∈ s.fetched, t.url ∈ s.visited) ∧
    (∀ (jsFiles output : List String) (u : String),
      (addJSFile (addJSFile jsFiles output u).1 (addJSFile jsFiles output u).2 u).2 =
        (addJSFile jsFiles output u).2) := by
  obtain ⟨h1, h2, _h3, _h4⟩ := sreach_inv h
  refine ⟨?_, ?_, ?_⟩
  · exact (by simpa [List.map_append] using h1 : (s.fetched.map CrawlTask.url ++
      s.inFlight.map CrawlTask.url).Nodup).of_append_left
  · intro t ht
    exact h2 t (by simp [List.mem_append, ht])
  · intro jsFiles output u
    by_cases hc : u ∈ jsFiles <;> simp [addJSFile, hc]

/-- Witness for C2: a two-step session (test-and-set of the root, then its
fetch) reaches a state with exactly one fetch of the root, recorded in the
visited set. -/
theorem visited_guard_fetches_once_witness :
    (([⟨"https://x.test/", 0⟩] : List CrawlTask).map CrawlTask.url).Nodup ∧
    (∀ t ∈ ([⟨"https://x.test/", 0⟩] : List CrawlTask), t.url ∈ ["https://x.test/"]) ∧
    (∀ (jsFiles output : List String) (u : String),
      (addJSFile (addJSFile jsFiles output u).1 (addJSFile jsFiles output u).2 u).2 =
        (addJSFile jsFiles output u).2) :=
  visited_guard_fetches_once 1 (fun _ => some []) "https://x.test/"
    ⟨["https://x.test/"], [], [], [⟨"https://x.test/", 0⟩]⟩
    (SReach.tail
      (SReach.tail (SReach.refl _)
        (SStep.testAndSet [] [] [] [] [] "https://x.test/" 0 (by omega) (by simp)))
      (SStep.fetchTask ["https://x.test/"] [] [] [] [] "https://x.test/" 0))

/-- Claim C3: the depth bound is an inclusive cutoff — every fetched or
in-flight task of a session has depth at most `MaxDepth` (a task above the
bound is dropped before any fetch), while a pending unvisited URL at depth
exactly `MaxDepth` can still go through the test-and-set and be fetched. -/
theorem depth_cutoff_inclusive (maxDepth : ℕ) (hrefs : String → Option (List String))
    (root : String) :
    (∀ s, SReach maxDepth hrefs (initSched root) s →
      ∀ t ∈ s.fetched ++ s.inFlight, t.depth ≤ maxDepth) ∧
    (∀ (v : List String) (l r infl f : List CrawlTask) (u : String),
      u ∉ v →
      SReach maxDepth hrefs ⟨v, l ++ ⟨u, maxDepth⟩ :: r, infl, f⟩
        ⟨u :: v, (l ++ r) ++ childTasks hrefs u maxDepth, infl, f ++ [⟨u, maxDepth⟩]⟩) := by
  constructor
  · intro s h
    exact (sreach_inv h).2.2.1
  · intro v l r infl f u hv
    refine SReach.tail (SReach.tail (SReach.refl _)
      (SStep.testAndSet v l r infl f u maxDepth (le_refl _) hv)) ?_
    have hstep := @SStep.fetchTask maxDepth hrefs
      (u :: v) (l ++ r) infl [] f u maxDepth
    simpa using hstep

/-- Witness for C3: with `maxDepth = 1`, a URL scheduled at depth 1 is still
fetched. -/
theorem depth_cutoff_inclusive_witness :
    SReach 1 (fun _ => some []) ⟨[], [⟨"https://x.test/p2", 1⟩], [], []⟩
      ⟨["https://x.test/p2"], [], [], [⟨"https://x.test/p2", 1⟩]⟩ := by
  have h := (depth_cutoff_inclusive 1 (fun _ => some []) "https://x.test/").2
    [] [] [] [] [] "https://x.test/p2" (by simp)
  simpa using h

/-- Claim C10: dropping a task because its depth exceeds `MaxDepth` leaves
the visited set unchanged (the depth guard runs before the test-and-set), so
the same URL rediscovered at a depth within the bound is still claimed and
fetched afterwards. -/
theorem depth_drop_leaves_url_schedulable (maxDepth : ℕ)
    (hrefs : String → Option (List String)) :
    (∀ (v : List String) (l r infl f : List CrawlTask) (u : String) (d : ℕ),
      maxDepth < d →
      SStep maxDepth hrefs ⟨v, l ++ ⟨u, d⟩ :: r, infl, f⟩ ⟨v, l ++ r, infl, f⟩) ∧
    (∀ (v : List String) (rest infl f : List CrawlTask) (u : String) (d d2 : ℕ),
      maxDepth < d → d2 ≤ maxDepth → u ∉ v →
      SReach maxDepth hrefs ⟨v, ⟨u, d⟩ :: ⟨u, d2⟩ :: rest, infl, f⟩
        ⟨u :: v, rest ++ childTasks hrefs u d2, infl, f ++ [⟨u, d2⟩]⟩) := by
  constructor
  · intro v l r infl f u d hd
    exact SStep.dropDepth v l r infl f u d hd
  · intro v rest infl f u d d2 hd hd2 hv
    refine SReach.tail (SReach.tail (SReach.tail (SReach.refl _)
      (SStep.dropDepth v [] (⟨u, d2⟩ :: rest) infl f u d hd))
      (SStep.testAndSet v [] rest infl f u d2 hd2 hv)) ?_
    have hstep := @SStep.fetchTask maxDepth hrefs
      (u :: v) rest infl [] f u d2
    simpa using hstep

/-- Witness for C10: a URL dropped at depth 2 under `maxDepth = 1` is fetched
when rediscovered at depth 1. -/
theorem depth_drop_leaves_url_schedulable_witness :
    SReach 1 (fun _ => some [])
      ⟨[], [⟨"https://x.test/a", 2⟩, ⟨"https://x.test/a", 1⟩], [], []⟩
      ⟨["https://x.test/a"], [], [], [⟨"https://x.test/a", 1⟩]⟩ := by
  have h := (depth_drop_leaves_url_schedulable 1 (fun _ => some [])).2
    [] [] [] [] "https://x.test/a" 2 1 (by omega) (by omega) (by simp)
  simpa using h

/-! ## Claims about `CrawlDomain` / `CrawlFromStdin` error propagation -/

/-- Counterexample to claim C6: with a working output destination but a root
URL whose fetch fails after all retries, `CrawlDomain` returns that fetch
error — a non-`nil` error that is **not** a session-setup failure, because
`crawlURL` returns the wrapped error of its own fetch and `CrawlDomain`
propagates it. -/
theorem crawlDomain_propagates_root_failure :
    CrawlDomain true (fun _ => none) 3 "https://x.test/" =
      some "failed to crawl https://x.test/" ∧
    ¬ (CrawlDomain true (fun _ => none) 3 "https://x.test/" = none) := by
  constructor
  · rfl
  · intro h
    simp [CrawlDomain, crawlURLf] at h

/-- Claim C6 as amended: `CrawlDomain` returns a non-`nil` error only for a
setup failure **or a failure of the root URL's own fetch**; when the root
fetch succeeds, every child link's failure is logged inside its goroutine and
swallowed, so the session returns `nil` with a partial resource set; the
stdin-driven entry point additionally swallows each line's whole-crawl error
and returns only setup or scanner errors. -/
theorem crawl_errors_setup_or_root (hrefs : String → Option (List String)) (maxDepth : ℕ)
    (setupOK : Bool) (domain : String) (lines : List String) (scanErr : Option String) :
    (∀ hs, hrefs domain = some hs →
      CrawlDomain setupOK hrefs maxDepth domain =
        if setupOK = false then some "failed to setup output" else none) ∧
    (∀ e, CrawlDomain setupOK hrefs maxDepth domain = some e →
      setupOK = false ∨ hrefs domain = none) ∧
    (CrawlFromStdin setupOK hrefs maxDepth lines scanErr =
      if setupOK = false then some "failed to setup output" else scanErr) := by
  refine ⟨?_, ?_, ?_⟩
  · intro hs hh
    cases setupOK with
    | false => simp [CrawlDomain]
    | true => simp [CrawlDomain, crawlURLf, hh]
  · intro e he
    cases hsetup : setupOK with
    | false => exact Or.inl rfl
    | true =>
      right
      cases hh : hrefs domain with
      | none => rfl
      | some hs =>
        exfalso
        subst hsetup
        rw [CrawlDomain] at he
        simp [crawlURLf, hh] at he
  · cases setupOK with
    | false => simp [CrawlFromStdin]
    | true => simp [CrawlFromStdin]

/-- Witness for the amended C6: a session whose root fetch succeeds returns
`nil` even though every deeper fetch fails, and the stdin entry point returns
`nil` even when the whole crawl of its input line fails. -/
theorem crawl_errors_setup_or_root_witness :
    CrawlDomain true
      (fun u => if u = "https://x.test/" then some ["/p2"] else none) 1
      "https://x.test/" = none ∧
    CrawlFromStdin true (fun _ => none) 1 ["https://x.test/"] none = none := by
  constructor
  · simpa using
      (crawl_errors_setup_or_root
        (fun u => if u = "https://x.test/" then some ["/p2"] else none) 1 true
        "https://x.test/" [] none).1 ["/p2"] (by simp)
  · simpa using
      (crawl_errors_setup_or_root (fun _ => none) 1 true "https://x.test/"
        ["https://x.test/"] none).2.2

/-! ## Claims about the link filter -/

/-- Counterexample to claim C7: a fragment-only reference resolves to the
page's own URL plus the fragment, which has the page's host, so
`extractLinks` **does** treat it as a crawlable link; and a link whose
scheme differs from the origin's (here `ftp:` vs `https:`) is also accepted,
because `isValidLink` compares hosts only. -/
theorem fragment_and_scheme_links_are_crawlable :
    validLinksOf ["#anchor"] "https://example.com/test" =
      ["https://example.com/test#anchor"] ∧
    isValidLink (resolveURL "#anchor" "https://example.com/test")
      "https://example.com/test" = true ∧
    isValidLink "ftp://example.com/x" "https://example.com/test" = true :=
  ⟨rfl, rfl, rfl⟩

/-- Claim C7 as amended: a discovered link is treated as crawlable iff both
it and the current page's URL parse and their **hosts** are equal — the
scheme is not compared, and the comparison is against the current page, not
the session's first URL, though host equality propagates to the session root
along the discovery chain (conjunct 5: every fetched task is the root or has
the root's host, so a link to a different host is never fetched).  `mailto:`
and `javascript:` links are rejected because they parse with an empty host,
but fragment-only references are accepted (see the counterexample). -/
theorem isValidLink_checks_host_only :
    (∀ link base : String, isValidLink link base = true ↔
      ∃ h, hostOf link = some h ∧ hostOf base = some h) ∧
    (∀ (link base : String) (pl pb : GoURL), parseURL link = some pl →
      parseURL base = some pb → pl.host ≠ pb.host → isValidLink link base = false) ∧
    (isValidLink (resolveURL "mailto:test@example.com" "https://example.com/test")
      "https://example.com/test" = false) ∧
    (isValidLink (resolveURL "javascript:void(0)" "https://example.com/test")
      "https://example.com/test" = false) ∧
    (∀ (maxDepth : ℕ) (hrefs : String → Option (List String)) (root : String)
        (s : SchedState), SReach maxDepth hrefs (initSched root) s →
      ∀ t ∈ s.fetched, t.url = root ∨ hostOf t.url = hostOf root) := by
  refine ⟨?_, ?_, rfl, rfl, ?_⟩
  · intro link base
    cases hpl : parseURL link with
    | none => simp [isValidLink, hostOf, hpl]
    | some pl =>
      cases hpb : parseURL base with
      | none => simp [isValidLink, hostOf, hpl, hpb]
      | some pb => simp [isValidLink, hostOf, hpl, hpb, eq_comm]
  · intro link base pl pb hpl hpb hne
    simp [isValidLink, hpl, hpb, hne]
  · intro maxDepth hrefs root s h t ht
    exact (sreach_inv h).2.2.2 t (by simp [List.mem_append, ht])

/-- Witness for the amended C7: same host accepted, different host
rejected. -/
theorem isValidLink_checks_host_only_witness :
    isValidLink "https://a.test/p" "https://a.test/q" = true ∧
    isValidLink "https://other.test/p" "https://x.test/" = false := by
  constructor
  · exact (isValidLink_checks_host_only.1 "https://a.test/p" "https://a.test/q").2
      ⟨"a.test", rfl, rfl⟩
  · exact isValidLink_checks_host_only.2.1 "https://other.test/p" "https://x.test/"
      _ _ rfl rfl (by decide)

/-! ## Claims about the semaphore fan-out -/

lemma activeCount_app : ∀ (l g : Forest),
    (l.app g).activeCount = l.activeCount + g.activeCount
  | .nil, g => by simp [Forest.app, Forest.activeCount]
  | .cons t rest, g => by
      simp [Forest.app, Forest.activeCount, activeCount_app rest g]
      omega

lemma childBound_app (T : ℕ) : ∀ (l g : Forest),
    Forest.childBound T (l.app g) = (Forest.childBound T l && Forest.childBound T g)
  | .nil, g => by simp [Forest.app, Forest.childBound]
  | .cons t rest, g => by
      simp [Forest.app, Forest.childBound, childBound_app T rest g, Bool.and_assoc]

lemma activateOne_count {cs cs' : Forest} (h : ActivateOne cs cs') :
    cs'.activeCount = cs.activeCount + 1 := by
  induction h with
  | head gcs rest => simp [Forest.activeCount, activePhase, PTree.phase]; omega
  | tail c h ih => simp [Forest.activeCount, ih]; omega

lemma activateOne_childBound (T : ℕ) {cs cs' : Forest} (h : ActivateOne cs cs') :
    Forest.childBound T cs' = Forest.childBound T cs := by
  induction h with
  | head gcs rest => simp [Forest.childBound, PTree.childBound]
  | tail c h ih => simp [Forest.childBound, ih]

/-- A step never turns an inactive invocation into an active one at its own
root: holding a slot can only start via the parent's `activate` rule. -/
lemma semStep_phase {T : ℕ} {c c' : PTree} (h : SemStep T c c') :
    activePhase c'.phase = true → activePhase c.phase = true := by
  cases h with
  | fetchDone cs => intro; rfl
  | joinDone cs hall => intro hx; exact absurd hx (by simp [PTree.phase, activePhase])
  | activate hcount hact => intro; rfl
  | inChild p before after h => intro hx; exact hx

lemma semStep_preserves_childBound {T : ℕ} {t t' : PTree} (h : SemStep T t t') :
    PTree.childBound T t = true → PTree.childBound T t' = true := by
  induction h with
  | fetchDone cs => exact id
  | joinDone cs hall => exact id
  | activate hcount hact =>
    intro hb
    simp only [PTree.childBound, Bool.and_eq_true, decide_eq_true_eq] at hb ⊢
    obtain ⟨hc, hf⟩ := hb
    rw [activateOne_count hact, activateOne_childBound T hact]
    exact ⟨by omega, hf⟩
  | inChild p before after h ih =>
    rename_i c c2
    intro hb
    simp only [PTree.childBound, Bool.and_eq_true, decide_eq_true_eq,
      childBound_app, activeCount_app, Forest.childBound, Forest.activeCount] at hb ⊢
    obtain ⟨hc, hbf, hcb, haf⟩ := hb
    refine ⟨?_, hbf, ih hcb, haf⟩
    have hph := semStep_phase h
    by_cases hcp : activePhase c2.phase = true
    · have hcpc := hph hcp
      simp only [hcp, if_true]
      simp only [hcpc, if_true] at hc
      omega
    · simp only [Bool.not_eq_true] at hcp
      simp only [hcp, Bool.false_eq_true, if_false]
      split at hc <;> omega

lemma semReach_childBound {T : ℕ} {t t' : PTree} (h : SemReach T t t')
    (hb : PTree.childBound T t = true) : PTree.childBound T t' = true := by
  induction h with
  | refl => exact hb
  | tail hr hs ih => exact semStep_preserves_childBound hs ih

/-- A spawned goroutine that has not acquired a slot yet, with no children. -/
def nsLeaf : PTree := .node .notStarted .nil

/-- An invocation with its fetch in flight and no children. -/
def fLeaf : PTree := .node .fetching .nil

/-- Two not-yet-started child goroutines. -/
def twoNS : Forest := .cons nsLeaf (.cons nsLeaf .nil)

/-- A not-yet-started invocation whose page will link to two children. -/
def nsSub : PTree := .node .notStarted twoNS

/-- The same invocation while fetching. -/
def fSub : PTree := .node .fetching twoNS

/-- The same invocation joined on its (not yet started) children. -/
def jSub : PTree := .node .joining twoNS

/-- An invocation waiting on two children whose fetches are both in flight. -/
def busySub : PTree := .node .joining (.cons fLeaf (.cons fLeaf .nil))

/-- A session start: the root fetch in flight, a 2×2 fan-out ahead. -/
def semInit : PTree := .node .fetching (.cons nsSub (.cons nsSub .nil))

/-- The state with all four grandchildren fetches simultaneously in flight. -/
def semFull : PTree := .node .joining (.cons busySub (.cons busySub .nil))

/-- Counterexample to claim C1: with `Threads = 2` and a crawl tree of two
children with two grandchildren each, the system reaches a state with four
fetches simultaneously in flight — each `crawlURL` call makes a **new**
semaphore of width `Threads` for its own children, so the width bounds only
each page's direct children and session-wide in-flight fetches exceed
`Threads`. -/
theorem semaphore_not_session_global :
    SemReach 2 semInit semFull ∧ PTree.countFetching semFull = 4 ∧
      2 < PTree.countFetching semFull := by
  refine ⟨?_, by decide, by decide⟩
  have s1 : SemStep 2 semInit (.node .joining (.cons nsSub (.cons nsSub .nil))) :=
    SemStep.fetchDone _
  have s2 : SemStep 2 (.node .joining (.cons nsSub (.cons nsSub .nil)))
      (.node .joining (.cons fSub (.cons nsSub .nil))) :=
    SemStep.activate (by decide) (ActivateOne.head twoNS (.cons nsSub .nil))
  have s3 : SemStep 2 (.node .joining (.cons fSub (.cons nsSub .nil)))
      (.node .joining (.cons fSub (.cons fSub .nil))) :=
    SemStep.activate (by decide) (ActivateOne.tail fSub (ActivateOne.head twoNS .nil))
  have s4 : SemStep 2 (.node .joining (.cons fSub (.cons fSub .nil)))
      (.node .joining (.cons jSub (.cons fSub .nil))) :=
    SemStep.inChild .joining .nil (.cons fSub .nil) (SemStep.fetchDone twoNS)
  have s5 : SemStep 2 (.node .joining (.cons jSub (.cons fSub .nil)))
      (.node .joining (.cons jSub (.cons jSub .nil))) :=
    SemStep.inChild .joining (.cons jSub .nil) .nil (SemStep.fetchDone twoNS)
  have a1 : SemStep 2 jSub (.node .joining (.cons fLeaf (.cons nsLeaf .nil))) :=
    SemStep.activate (by decide) (ActivateOne.head .nil (.cons nsLeaf .nil))
  have a2 : SemStep 2 (.node .joining (.cons fLeaf (.cons nsLeaf .nil))) busySub :=
    SemStep.activate (by decide) (ActivateOne.tail fLeaf (ActivateOne.head .nil .nil))
  have s6 : SemStep 2 (.node .joining (.cons jSub (.cons jSub .nil)))
      (.node .joining (.cons (.node .joining (.cons fLeaf (.cons nsLeaf .nil)))
        (.cons jSub .nil))) :=
    SemStep.inChild .joining .nil (.cons jSub .nil) a1
  have s7 : SemStep 2 (.node .joining (.cons (.node .joining
        (.cons fLeaf (.cons nsLeaf .nil))) (.cons jSub .nil)))
      (.node .joining (.cons busySub (.cons jSub .nil))) :=
    SemStep.inChild .joining .nil (.cons jSub .nil) a2
  have s8 : SemStep 2 (.node .joining (.cons busySub (.cons jSub .nil)))
      (.node .joining (.cons busySub (.cons (.node .joining
        (.cons fLeaf (.cons nsLeaf .nil))) .nil))) :=
    SemStep.inChild .joining (.cons busySub .nil) .nil a1
  have s9 : SemStep 2 (.node .joining (.cons busySub (.cons (.node .joining
        (.cons fLeaf (.cons nsLeaf .nil))) .nil))) semFull :=
    SemStep.inChild .joining (.cons busySub .nil) .nil a2
  exact SemReach.tail (SemReach.tail (SemReach.tail (SemReach.tail (SemReach.tail
    (SemReach.tail (SemReach.tail (SemReach.tail (SemReach.tail
      (SemReach.refl semInit) s1) s2) s3) s4) s5) s6) s7) s8) s9

/-- Claim C1 as amended: each `crawlURL` invocation's own semaphore bounds
its direct children — in every state reachable from a state satisfying the
per-parent bound, every invocation has at most `Threads` children holding a
slot (fetching or joined-waiting) simultaneously.  The session-wide number
of in-flight fetches is **not** bounded by `Threads` (see the
counterexample). -/
theorem semaphore_per_parent_bound (T : ℕ) (t t' : PTree)
    (hb : PTree.childBound T t = true) (h : SemReach T t t') :
    PTree.childBound T t' = true :=
  semReach_childBound h hb

/-- Witness for the amended C1: the bound holds at the initial session state
and at a state with both children of one page active under `Threads = 2`. -/
theorem semaphore_per_parent_bound_witness :
    PTree.childBound 2 semInit = true ∧
    PTree.childBound 2 (PTree.node .joining (.cons fSub (.cons fSub .nil))) = true :=
  ⟨semaphore_per_parent_bound 2 semInit semInit (by decide) (SemReach.refl _),
   semaphore_per_parent_bound 2 (.node .joining (.cons fSub (.cons fSub .nil))) _
     (by decide) (SemReach.refl _)⟩

end JSFinder
